import Mathlib

/-!
Verification of the Meeting Room Reservation System domain model and
JSON-file repository against its specification.

The Python source is shallowly embedded:
* `datetime` values become `Int` timestamps (only their ordering matters);
* pydantic model construction with validators becomes functions returning
  `Except PyError _` (a validator that raises aborts construction);
* in-place mutation of the `MeetingRoom` aggregate becomes explicit state
  passing: an operation returns the post-state together with either the
  produced value or the raised error (mirroring that Python raises happen
  at specific program points, before or after particular mutations);
* the file system seen by `JsonMeetingRoomRepository` becomes an
  association list from file names to file contents, where a content is
  either a well-formed document, a JSON-parse failure, or JSON of the
  wrong shape.
-/

deriving instance DecidableEq for Except

namespace MRRS

/-- The exception classes that the embedded code can raise.
`valueError` stands for Python `ValueError` (including pydantic
`ValidationError`, which subclasses it); the remaining constructors are the
classes from `src/domain/exceptions.py`, all subclasses of `DomainError`
(which does NOT subclass `ValueError`). -/
inductive PyError where
  | valueError (msg : String)
  | invalidTimeSlot
  | invalidAttendeeCount
  | overlappingBooking
  | bookingNotFound
deriving Repr, DecidableEq

/-- The `TimeSlot` model from `src/domain/entities/timeslot.py`: a start and end
timestamp. -/
structure TimeSlot where
  start_time : Int
  end_time : Int
deriving Repr, DecidableEq

/-- Constructing a `TimeSlot(start_time=s, end_time=e)`: pydantic runs the
`validate_times` model validator, which raises
`ValueError("End time must be after start time.")` when
`start_time >= end_time`. The domain class `InvalidTimeSlotError` is defined
in `src/domain/exceptions.py` but is never raised by `TimeSlot`. -/
def TimeSlot.construct (s e : Int) : Except PyError TimeSlot :=
  if s ≥ e then .error (.valueError "End time must be after start time.")
  else .ok ⟨s, e⟩

/-- Python `TimeSlot.overlaps_with`:
`not (self.end_time <= other.start_time or self.start_time >= other.end_time)`. -/
def TimeSlot.overlaps_with (a b : TimeSlot) : Bool :=
  !(decide (a.end_time ≤ b.start_time) || decide (a.start_time ≥ b.end_time))

/-- Python `TimeSlot.__lt__`: `self.end_time <= other.start_time`. -/
def TimeSlot.lt (a b : TimeSlot) : Bool := decide (a.end_time ≤ b.start_time)

/-- Python `TimeSlot.__gt__`: `self.start_time >= other.end_time`. -/
def TimeSlot.gt (a b : TimeSlot) : Bool := decide (a.start_time ≥ b.end_time)

/-- Python `TimeSlot.__le__`: `self.end_time <= other.start_time`. -/
def TimeSlot.le (a b : TimeSlot) : Bool := decide (a.end_time ≤ b.start_time)

/-- Python `TimeSlot.__ge__`: `self.start_time >= other.end_time`. -/
def TimeSlot.ge (a b : TimeSlot) : Bool := decide (a.start_time ≥ b.end_time)

/-- The `Booking` model from `src/domain/entities/booking.py`. -/
structure Booking where
  booking_id : String
  time_slot : TimeSlot
  booker : String
  attendees : Int
deriving Repr, DecidableEq

/-- Constructing a `Booking(...)` with an already-built `TimeSlot` instance
(pydantic does not revalidate model instances by default): the
`validate_attendees` model validator raises `InvalidAttendeeCountError`
unless `4 <= attendees <= 20` (the bound 20 is hard-coded in `Booking`).
The fresh uuid that `booking_id` defaults to is passed in explicitly. -/
def Booking.construct (booking_id : String) (time_slot : TimeSlot)
    (booker : String) (attendees : Int) : Except PyError Booking :=
  if 4 ≤ attendees ∧ attendees ≤ 20 then
    .ok ⟨booking_id, time_slot, booker, attendees⟩
  else .error .invalidAttendeeCount

/-- The per-booking conditions checked by the pydantic validators
(`TimeSlot.validate_times` and `Booking.validate_attendees`). Every
`Booking` object the Python code can build satisfies them. -/
def Booking.validatorsOk (b : Booking) : Prop :=
  b.time_slot.start_time < b.time_slot.end_time ∧
    4 ≤ b.attendees ∧ b.attendees ≤ 20

instance (b : Booking) : Decidable b.validatorsOk := by
  unfold Booking.validatorsOk; infer_instance

/-- The `MeetingRoom` aggregate from `src/domain/aggregates/meeting_room.py`. -/
structure MeetingRoom where
  id : String
  capacity : Int
  bookings : List Booking
deriving Repr, DecidableEq

/-- Python `MeetingRoom.book`: validates `4 <= attendees <= self.capacity`, scans
existing bookings for an overlap, then constructs a `Booking` (whose own
validator enforces `4 <= attendees <= 20`) and appends it. The pair returned
is (room state after the call, returned booking or raised error); every
raise happens before the append, so on error the state is the pre-state.
`newId` stands for the uuid generated for the new booking. -/
def MeetingRoom.book (room : MeetingRoom) (newId : String) (time_slot : TimeSlot)
    (booker : String) (attendees : Int) : MeetingRoom × Except PyError Booking :=
  if ¬(4 ≤ attendees ∧ attendees ≤ room.capacity) then
    (room, .error .invalidAttendeeCount)
  else if room.bookings.any (fun b => time_slot.overlaps_with b.time_slot) then
    (room, .error .overlappingBooking)
  else
    match Booking.construct newId time_slot booker attendees with
    | .error e => (room, .error e)
    | .ok nb => ({ room with bookings := room.bookings ++ [nb] }, .ok nb)

/-- Python `MeetingRoom.cancel`: replaces `bookings` by the sublist of bookings
whose id differs from `booking_id` (this assignment happens first, exactly
as in the source), then raises `BookingNotFoundError` if the length did not
change. -/
def MeetingRoom.cancel (room : MeetingRoom) (booking_id : String) :
    MeetingRoom × Option PyError :=
  if (room.bookings.filter (fun b => !(b.booking_id == booking_id))).length =
      room.bookings.length then
    ({ room with
        bookings := room.bookings.filter (fun b => !(b.booking_id == booking_id)) },
      some .bookingNotFound)
  else
    ({ room with
        bookings := room.bookings.filter (fun b => !(b.booking_id == booking_id)) },
      none)

/-- Stable insertion by `time_slot.start_time`: the new element goes in
front of the first element whose start time is not smaller. -/
def insertByStart (b : Booking) : List Booking → List Booking
  | [] => [b]
  | x :: xs =>
      if b.time_slot.start_time ≤ x.time_slot.start_time then b :: x :: xs
      else x :: insertByStart b xs

/-- Stable insertion sort by `time_slot.start_time`. -/
def sortByStart : List Booking → List Booking
  | [] => []
  | x :: xs => insertByStart x (sortByStart xs)

/-- Python `MeetingRoom.list_bookings`:
`sorted(self.bookings, key=lambda b: b.time_slot.start_time)`. Python's
`sorted` is a stable sort by the key and returns a fresh list; it is
modelled by a stable insertion sort (the output of a stable sort by a total
key is uniquely determined, so the choice of algorithm is immaterial). -/
def MeetingRoom.list_bookings (room : MeetingRoom) : List Booking :=
  sortByStart room.bookings

/-- One call on the aggregate: a `book` (with the uuid it would generate)
or a `cancel`. -/
inductive Op where
  | book (newId : String) (slot : TimeSlot) (booker : String) (attendees : Int)
  | cancel (booking_id : String)
deriving Repr, DecidableEq

/-- The room state after one call, successful or not (failed calls leave
the state they produced, which for every failing path of `book` and
`cancel` has the same value as the pre-state). -/
def applyOp (room : MeetingRoom) : Op → MeetingRoom
  | .book newId slot booker attendees => (room.book newId slot booker attendees).1
  | .cancel booking_id => (room.cancel booking_id).1

/-- The room state after a sequence of calls. -/
def runOps (room : MeetingRoom) (ops : List Op) : MeetingRoom :=
  ops.foldl applyOp room

/-- No two entries of the list have overlapping time slots. -/
def NoOverlap (bs : List Booking) : Prop :=
  bs.Pairwise (fun a b => a.time_slot.overlaps_with b.time_slot = false)

/-- The JSON document `model_dump(mode="json")` produces for one booking
(the nested `time_slot` object is flattened into its two timestamps). -/
structure BookingDoc where
  booking_id : String
  start_time : Int
  end_time : Int
  booker : String
  attendees : Int
deriving Repr, DecidableEq

/-- The JSON document stored in a room's file. -/
structure RoomDoc where
  id : String
  capacity : Int
  bookings : List BookingDoc
deriving Repr, DecidableEq

/-- Content of a file as the repository's read path sees it:
`unparseable` raw bytes make `json.load` raise `JSONDecodeError`;
`wrongShape` is well-formed JSON that does not fit the `MeetingRoom`
schema, so pydantic raises `ValidationError` (a `ValueError`); `doc` is
JSON of the right shape, carried as a `RoomDoc`. -/
inductive FileData where
  | unparseable (raw : String)
  | wrongShape (raw : String)
  | doc (d : RoomDoc)
deriving Repr, DecidableEq

/-- Serialization `model_dump(mode="json")` of one booking. -/
def serializeBooking (b : Booking) : BookingDoc :=
  ⟨b.booking_id, b.time_slot.start_time, b.time_slot.end_time, b.booker, b.attendees⟩

/-- Serialization `meeting_room.model_dump(mode="json")`. -/
def MeetingRoom.model_dump (room : MeetingRoom) : RoomDoc :=
  ⟨room.id, room.capacity, room.bookings.map serializeBooking⟩

/-- Outcome of `MeetingRoom.model_validate` on a shape-correct document:
`ok` on success; `valueError` when validation fails with a pydantic
`ValidationError` (a `ValueError` — this is how `TimeSlot.validate_times`'s
`ValueError` surfaces); `attendeeError` when `Booking.validate_attendees`
raises `InvalidAttendeeCountError`, which pydantic does NOT convert (only
`ValueError`/`AssertionError` become `ValidationError`), so the domain
exception escapes `model_validate` itself. -/
inductive ValidateOutcome where
  | ok (room : MeetingRoom)
  | valueError
  | attendeeError
deriving Repr, DecidableEq

/-- The booking reconstructed from a document. -/
def bookingOfDoc (d : BookingDoc) : Booking :=
  ⟨d.booking_id, ⟨d.start_time, d.end_time⟩, d.booker, d.attendees⟩

/-- A booking document whose `TimeSlot` fields pass `validate_times` but
whose attendee count fails `validate_attendees`: validating it raises
`InvalidAttendeeCountError` (a bad time slot instead aborts that booking's
construction with a recorded `ValueError`, so its after-validator never
runs). -/
def BookingDoc.raisesAttendeeError (d : BookingDoc) : Bool :=
  decide (d.start_time < d.end_time) &&
    !(decide (4 ≤ d.attendees) && decide (d.attendees ≤ 20))

/-- Python `MeetingRoom.model_validate(json_data)` on a shape-correct document.
pydantic validates the bookings element-wise, recording `ValueError`s to
collect into one `ValidationError`, but a non-`ValueError` exception from a
validator (here `InvalidAttendeeCountError`) propagates at once; so the
outcome is `attendeeError` if any booking raises it, else `valueError` if
any booking has a bad time slot, else the reconstructed room. -/
def MeetingRoom.model_validate (d : RoomDoc) : ValidateOutcome :=
  if d.bookings.any BookingDoc.raisesAttendeeError then .attendeeError
  else if d.bookings.any (fun b => !(decide (b.start_time < b.end_time))) then .valueError
  else .ok ⟨d.id, d.capacity, d.bookings.map bookingOfDoc⟩

/-- The storage directory: file name to file content. -/
abbrev FS := List (String × FileData)

/-- Read a file (most recent write wins). -/
def fsGet (fs : FS) (path : String) : Option FileData :=
  match List.find? (fun p => p.1 == path) fs with
  | some p => some p.2
  | none => none

/-- Write a file. -/
def fsPut (fs : FS) (path : String) (d : FileData) : FS :=
  (path, d) :: fs

/-- Python `_get_file_path`: `<room_id>.json` (the storage directory is the FS
itself, so the directory prefix is dropped). -/
def filePathOf (roomId : String) : String := roomId ++ ".json"

/-- Python `_create_backup_file` backup target: `<file_path>.backup`. -/
def backupPathOf (roomId : String) : String := filePathOf roomId ++ ".backup"

/-- Result of `find_by_id` / `_load_from_file` as the caller observes it:
a room, absence (`None`), or an escaped exception. -/
inductive LoadOutcome where
  | found (room : MeetingRoom)
  | absent
  | raised (e : PyError)
deriving Repr, DecidableEq

/-- Python `_load_from_file`: missing file returns `None`; a `JSONDecodeError`,
`ValidationError` or other `ValueError` is caught, the original file is
copied to the `.backup` sibling, and `None` is returned; an
`InvalidAttendeeCountError` from `model_validate` is not in the caught
tuple `(OSError, PermissionError, json.JSONDecodeError, ValueError)`, so it
propagates before `_create_backup_file` is reached. Returns the outcome and
the file system after the call. -/
def loadFromFile (fs : FS) (roomId : String) : LoadOutcome × FS :=
  match fsGet fs (filePathOf roomId) with
  | none => (.absent, fs)
  | some (.unparseable raw) =>
      (.absent, fsPut fs (backupPathOf roomId) (.unparseable raw))
  | some (.wrongShape raw) =>
      (.absent, fsPut fs (backupPathOf roomId) (.wrongShape raw))
  | some (.doc d) =>
      match MeetingRoom.model_validate d with
      | .ok room => (.found room, fs)
      | .valueError => (.absent, fsPut fs (backupPathOf roomId) (.doc d))
      | .attendeeError => (.raised .invalidAttendeeCount, fs)

/-- The `JsonMeetingRoomRepository` state: the storage directory plus the in-memory
cache (the reentrant lock serialises calls, so single-threaded semantics
model each operation). -/
structure JsonRepo where
  fs : FS
  cache : List (String × MeetingRoom)
deriving Repr, DecidableEq

/-- Cache lookup. -/
def cacheGet (c : List (String × MeetingRoom)) (roomId : String) : Option MeetingRoom :=
  match List.find? (fun p => p.1 == roomId) c with
  | some p => some p.2
  | none => none

/-- Cache update (`self._cache[room_id] = room`). -/
def cachePut (c : List (String × MeetingRoom)) (roomId : String) (room : MeetingRoom) :
    List (String × MeetingRoom) :=
  (roomId, room) :: c

/-- Python `save`: `_save_to_file` serialises with `model_dump(mode="json")` and
atomically replaces `<id>.json`, then the cache entry is updated. -/
def JsonRepo.save (repo : JsonRepo) (room : MeetingRoom) : JsonRepo :=
  { fs := fsPut repo.fs (filePathOf room.id) (.doc room.model_dump),
    cache := cachePut repo.cache room.id room }

/-- Python `find_by_id`: return the cached room if present; otherwise
`_load_from_file`, caching a successfully loaded room. -/
def JsonRepo.find_by_id (repo : JsonRepo) (roomId : String) : LoadOutcome × JsonRepo :=
  match cacheGet repo.cache roomId with
  | some room => (.found room, repo)
  | none =>
      match loadFromFile repo.fs roomId with
      | (.found room, fs') =>
          (.found room, { fs := fs', cache := cachePut repo.cache roomId room })
      | (.absent, fs') => (.absent, { repo with fs := fs' })
      | (.raised e, fs') => (.raised e, { repo with fs := fs' })

/-- A new repository instance pointed at an existing storage directory:
the cache starts empty. -/
def JsonRepo.fresh (fs : FS) : JsonRepo := ⟨fs, []⟩

/-! ### Helper lemmas -/

theorem overlaps_with_symm (a b : TimeSlot) :
    a.overlaps_with b = b.overlaps_with a := by
  simp only [TimeSlot.overlaps_with, ge_iff_le, Bool.or_comm]

theorem overlaps_with_eq_false_iff (a b : TimeSlot) :
    a.overlaps_with b = false ↔
      a.end_time ≤ b.start_time ∨ b.end_time ≤ a.start_time := by
  simp [TimeSlot.overlaps_with, ge_iff_le]
  omega

theorem cancel_fst_bookings (room : MeetingRoom) (bid : String) :
    (room.cancel bid).1.bookings =
      room.bookings.filter (fun b => !(b.booking_id == bid)) := by
  unfold MeetingRoom.cancel
  split <;> rfl

theorem book_fst_bookings (room : MeetingRoom) (newId : String)
    (slot : TimeSlot) (booker : String) (attendees : Int) :
    (room.book newId slot booker attendees).1 = room ∨
    (room.bookings.any (fun b => slot.overlaps_with b.time_slot) = false ∧
      (room.book newId slot booker attendees).1.bookings =
        room.bookings ++ [Booking.mk newId slot booker attendees]) := by
  unfold MeetingRoom.book
  by_cases h1 : ¬(4 ≤ attendees ∧ attendees ≤ room.capacity)
  · rw [if_pos h1]
    exact Or.inl rfl
  · rw [if_neg h1]
    by_cases h2 : room.bookings.any (fun b => slot.overlaps_with b.time_slot) = true
    · rw [if_pos h2]
      exact Or.inl rfl
    · rw [if_neg h2]
      unfold Booking.construct
      by_cases h3 : 4 ≤ attendees ∧ attendees ≤ 20
      · rw [if_pos h3]
        exact Or.inr ⟨by simpa using h2, rfl⟩
      · rw [if_neg h3]
        exact Or.inl rfl

theorem book_error_state_unchanged (room : MeetingRoom) (newId : String)
    (slot : TimeSlot) (booker : String) (attendees : Int) (e : PyError)
    (he : (room.book newId slot booker attendees).2 = .error e) :
    (room.book newId slot booker attendees).1 = room := by
  by_cases h1 : ¬(4 ≤ attendees ∧ attendees ≤ room.capacity)
  · simp only [MeetingRoom.book, if_pos h1]
  · by_cases h2 : room.bookings.any (fun b => slot.overlaps_with b.time_slot) = true
    · simp only [MeetingRoom.book, if_neg h1, if_pos h2]
    · rcases hc : Booking.construct newId slot booker attendees with e' | nb
      · simp only [MeetingRoom.book, if_neg h1, if_neg h2, hc]
      · simp only [MeetingRoom.book, if_neg h1, if_neg h2, hc] at he
        exact absurd he (by simp)

end MRRS

namespace MRRS

/-! ### Claim theorems -/

/-- C7 counterexample: the slots `[0, 2)` and `[1, 3)` are valid and the
first starts strictly earlier, yet `__lt__` returns `False` on them, so
"A is less than B exactly when A's start time precedes B's start time"
fails on the code. -/
theorem timeslot_ordering_claim_counterexample :
    (0 : Int) < 2 ∧ (1 : Int) < 3 ∧
    (TimeSlot.mk 0 2).start_time < (TimeSlot.mk 1 3).start_time ∧
    TimeSlot.lt ⟨0, 2⟩ ⟨1, 3⟩ = false := by decide

/-- C7 (amended): `__lt__` returns true exactly when the left slot ends at
or before the right slot starts (so a slot that entirely precedes another
is less than it); `__le__` coincides with `__lt__` and `__ge__` with
`__gt__` (which is `__lt__` flipped); consequently the operators compare by
interval precedence, not by start time, and two overlapping slots are
incomparable (not a total order). -/
theorem timeslot_ordering_spec (a b : TimeSlot) :
    (a.lt b = true ↔ a.end_time ≤ b.start_time) ∧
    a.le b = a.lt b ∧
    a.gt b = b.lt a ∧
    a.ge b = b.lt a ∧
    (a.overlaps_with b = true → a.lt b = false ∧ b.lt a = false) := by
  refine ⟨by simp [TimeSlot.lt], rfl, ?_, ?_, ?_⟩
  · simp [TimeSlot.gt, TimeSlot.lt, ge_iff_le]
  · simp [TimeSlot.ge, TimeSlot.lt, ge_iff_le]
  · intro hov
    simp only [TimeSlot.overlaps_with, ge_iff_le, Bool.not_eq_true',
      Bool.or_eq_false_iff, decide_eq_false_iff_not, not_le] at hov
    simp only [TimeSlot.lt, decide_eq_false_iff_not, not_le]
    omega

/-- C7 witness: `[0, 1)` entirely precedes `[5, 6)` and is less than it;
`[0, 5)` overlaps `[1, 3)` and the two are incomparable. -/
theorem timeslot_ordering_spec_witness :
    TimeSlot.lt ⟨0, 1⟩ ⟨5, 6⟩ = true ∧
    TimeSlot.lt ⟨0, 5⟩ ⟨1, 3⟩ = false ∧ TimeSlot.lt ⟨1, 3⟩ ⟨0, 5⟩ = false :=
  ⟨(timeslot_ordering_spec ⟨0, 1⟩ ⟨5, 6⟩).1.mpr (by norm_num),
    (timeslot_ordering_spec ⟨0, 5⟩ ⟨1, 3⟩).2.2.2.2 (by decide)⟩

/-- C8 counterexample: at `start = end = 0`, constructing a `TimeSlot`
fails, but with `ValueError("End time must be after start time.")` (which
pydantic wraps in a `ValidationError`), not with the domain
`InvalidTimeSlotError`, which no code path raises. -/
theorem timeslot_construct_claim_counterexample :
    TimeSlot.construct 0 0 =
      .error (.valueError "End time must be after start time.") ∧
    TimeSlot.construct 0 0 ≠ .error .invalidTimeSlot := by
  refine ⟨rfl, fun h => ?_⟩
  simp [TimeSlot.construct] at h

/-- C8 (amended): constructing a `TimeSlot` from `(start, end)` fails with
`ValueError("End time must be after start time.")` — not with the (unused)
domain `InvalidTimeSlotError` — when `end <= start`, and succeeds with
exactly those times when `start < end`. -/
theorem timeslot_construct_spec (s e : Int) :
    (e ≤ s →
      TimeSlot.construct s e =
        .error (.valueError "End time must be after start time.")) ∧
    (s < e → TimeSlot.construct s e = .ok ⟨s, e⟩) := by
  refine ⟨fun h => ?_, fun h => ?_⟩
  · unfold TimeSlot.construct
    rw [if_pos (by omega)]
  · unfold TimeSlot.construct
    rw [if_neg (by omega)]

/-- C8 witness: `construct 0 1` succeeds and `construct 0 0` fails with the
`ValueError`. -/
theorem timeslot_construct_spec_witness :
    ((0 : Int) < 1 ∧ TimeSlot.construct 0 1 = .ok ⟨0, 1⟩) ∧
    ((0 : Int) ≤ 0 ∧
      TimeSlot.construct 0 0 =
        .error (.valueError "End time must be after start time.")) :=
  ⟨⟨by norm_num, (timeslot_construct_spec 0 1).2 (by norm_num)⟩,
    ⟨le_refl 0, (timeslot_construct_spec 0 0).1 (le_refl 0)⟩⟩

/-- C2 counterexample: on a room of capacity 25 with no bookings, a request
with `attendees = 22` satisfies `4 <= attendees <= capacity` and overlaps
nothing, yet `book` fails with `InvalidAttendeeCountError`, because the
`Booking` model validator hard-codes the upper bound 20. -/
theorem book_success_claim_counterexample :
    ((4 : Int) ≤ 22 ∧ (22 : Int) ≤ 25) ∧
    (MeetingRoom.book ⟨"r", 25, []⟩ "b1" ⟨0, 1⟩ "Alice" 22).2 =
      .error .invalidAttendeeCount := by decide

/-- C2 (amended): for every room and every request with
`4 <= attendees <= capacity` AND `attendees <= 20` (the hard-coded upper
bound of `Booking.validate_attendees`) whose slot overlaps no existing
booking, `book` succeeds, appends exactly one booking carrying the given
slot, booker and attendee count, and returns that booking. For rooms with
`capacity <= 20` this is the claim as stated. -/
theorem book_success_appends (room : MeetingRoom) (newId : String)
    (slot : TimeSlot) (booker : String) (attendees : Int)
    (h4 : 4 ≤ attendees) (hcap : attendees ≤ room.capacity)
    (h20 : attendees ≤ 20)
    (hov : ∀ b ∈ room.bookings, slot.overlaps_with b.time_slot = false) :
    room.book newId slot booker attendees =
      ({ room with bookings := room.bookings ++ [⟨newId, slot, booker, attendees⟩] },
        .ok ⟨newId, slot, booker, attendees⟩) := by
  have hany : room.bookings.any (fun b => slot.overlaps_with b.time_slot) = false := by
    simp only [List.any_eq_false]
    intro b hb
    simp [hov b hb]
  unfold MeetingRoom.book Booking.construct
  rw [if_neg (not_not_intro ⟨h4, hcap⟩), if_neg (by simp [hany]),
    if_pos ⟨h4, h20⟩]

/-- C2 witness: booking an empty default-capacity room succeeds and appends
the one new booking. -/
theorem book_success_appends_witness :
    MeetingRoom.book ⟨"r", 20, []⟩ "b1" ⟨0, 1⟩ "Alice" 10 =
      (⟨"r", 20, [⟨"b1", ⟨0, 1⟩, "Alice", 10⟩]⟩,
        .ok ⟨"b1", ⟨0, 1⟩, "Alice", 10⟩) :=
  book_success_appends ⟨"r", 20, []⟩ "b1" ⟨0, 1⟩ "Alice" 10
    (by norm_num) (by norm_num) (by norm_num) (by simp)

/-- C3: whenever `book` fails it leaves the bookings unchanged: an attendee
count outside `[4, capacity]` fails with `InvalidAttendeeCountError` before
any state change; with a legal attendee count, an overlapping slot fails
with `OverlappingBookingError` before any state change; and on every error
outcome the post-state equals the pre-state (all-or-nothing). -/
theorem book_failure_atomicity (room : MeetingRoom) (newId : String)
    (slot : TimeSlot) (booker : String) (attendees : Int) :
    (¬(4 ≤ attendees ∧ attendees ≤ room.capacity) →
      room.book newId slot booker attendees = (room, .error .invalidAttendeeCount)) ∧
    (4 ≤ attendees ∧ attendees ≤ room.capacity →
      room.bookings.any (fun b => slot.overlaps_with b.time_slot) = true →
      room.book newId slot booker attendees = (room, .error .overlappingBooking)) ∧
    (∀ e, (room.book newId slot booker attendees).2 = .error e →
      (room.book newId slot booker attendees).1 = room) := by
  refine ⟨fun h => ?_, fun h1 h2 => ?_, fun e he => book_error_state_unchanged _ _ _ _ _ e he⟩
  · simp only [MeetingRoom.book, if_pos h]
  · simp only [MeetingRoom.book, if_neg (not_not_intro h1), if_pos h2]

/-- C3 witness: too few attendees fails with `InvalidAttendeeCountError`
and an overlapping request fails with `OverlappingBookingError`, in both
cases leaving the room exactly as it was. -/
theorem book_failure_atomicity_witness :
    MeetingRoom.book ⟨"r", 20, []⟩ "b1" ⟨0, 1⟩ "Alice" 3 =
      (⟨"r", 20, []⟩, .error .invalidAttendeeCount) ∧
    MeetingRoom.book ⟨"r", 20, [⟨"x", ⟨0, 2⟩, "Bob", 5⟩]⟩ "b2" ⟨1, 3⟩ "Alice" 5 =
      (⟨"r", 20, [⟨"x", ⟨0, 2⟩, "Bob", 5⟩]⟩, .error .overlappingBooking) :=
  ⟨(book_failure_atomicity (MeetingRoom.mk "r" 20 []) "b1" (TimeSlot.mk 0 1)
      "Alice" 3).1 (by decide),
    (book_failure_atomicity
      (MeetingRoom.mk "r" 20 [Booking.mk "x" (TimeSlot.mk 0 2) "Bob" 5]) "b2"
      (TimeSlot.mk 1 3) "Alice" 5).2.1 (by decide) (by decide)⟩

theorem cancel_filter_length_of_distinct (l : List Booking) (bid : String)
    (hd : l.Pairwise (fun a b => a.booking_id ≠ b.booking_id))
    (hm : l.any (fun b => b.booking_id == bid) = true) :
    (l.filter (fun b => !(b.booking_id == bid))).length + 1 = l.length := by
  induction l with
  | nil => simp at hm
  | cons x xs ih =>
    rcases List.pairwise_cons.mp hd with ⟨hx, hxs⟩
    by_cases hxb : x.booking_id = bid
    · have hall : ∀ b ∈ xs, (!(b.booking_id == bid)) = true := by
        intro b hb
        have hne := hx b hb
        simp only [Bool.not_eq_true', beq_eq_false_iff_ne, ne_eq]
        intro hbb
        exact hne (by rw [hxb, hbb])
      simp [List.filter_cons, hxb, List.filter_eq_self.mpr hall]
    · have hm' : xs.any (fun b => b.booking_id == bid) = true := by
        simp only [List.any_cons, Bool.or_eq_true, beq_iff_eq] at hm
        rcases hm with h | h
        · exact absurd h hxb
        · exact h
      have := ih hxs hm'
      simp only [List.filter_cons, Bool.not_eq_true', beq_eq_false_iff_ne, ne_eq]
      rw [if_pos hxb]
      simp only [List.length_cons]
      omega

/-- C6 counterexample: a room holding two bookings that share the id `"x"`
(such a room is constructible — deserialization does not check id
uniqueness) has a booking with that id, yet `cancel("x")` removes BOTH
entries, not exactly one. -/
theorem cancel_claim_counterexample :
    (MeetingRoom.mk "r" 20
        [Booking.mk "x" (TimeSlot.mk 0 1) "Alice" 5,
         Booking.mk "x" (TimeSlot.mk 2 3) "Bob" 6]).bookings.any
      (fun b => b.booking_id == "x") = true ∧
    ((MeetingRoom.mk "r" 20
        [Booking.mk "x" (TimeSlot.mk 0 1) "Alice" 5,
         Booking.mk "x" (TimeSlot.mk 2 3) "Bob" 6]).cancel "x").1.bookings.length = 0 ∧
    (MeetingRoom.mk "r" 20
        [Booking.mk "x" (TimeSlot.mk 0 1) "Alice" 5,
         Booking.mk "x" (TimeSlot.mk 2 3) "Bob" 6]).bookings.length = 2 := by
  decide

/-- C6 (amended): `cancel(booking_id)` removes every booking carrying that
id, keeping the others in their relative order (the new list is the filter
of the old). When no booking has the id it fails with
`BookingNotFoundError` and the list is unchanged; when the room's booking
ids are pairwise distinct (the aggregate's intended invariant) and some
booking has the id, it succeeds and removes exactly one entry. -/
theorem cancel_spec (room : MeetingRoom) (bid : String) :
    ((room.cancel bid).1.bookings =
      room.bookings.filter (fun b => !(b.booking_id == bid))) ∧
    (room.bookings.any (fun b => b.booking_id == bid) = false →
      room.cancel bid = (room, some .bookingNotFound)) ∧
    (room.bookings.Pairwise (fun a b => a.booking_id ≠ b.booking_id) →
      room.bookings.any (fun b => b.booking_id == bid) = true →
      (room.cancel bid).2 = none ∧
      (room.cancel bid).1.bookings.length + 1 = room.bookings.length) := by
  refine ⟨cancel_fst_bookings room bid, fun hno => ?_, fun hd hm => ?_⟩
  · have hall : ∀ b ∈ room.bookings, (!(b.booking_id == bid)) = true := by
      intro b hb
      have h2 : ∀ x ∈ room.bookings, ¬x.booking_id = bid := by simpa using hno
      simpa using h2 b hb
    have hfix : room.bookings.filter (fun b => !(b.booking_id == bid)) =
        room.bookings := List.filter_eq_self.mpr hall
    unfold MeetingRoom.cancel
    rw [hfix, if_pos rfl]
  · have hlen := cancel_filter_length_of_distinct room.bookings bid hd hm
    constructor
    · unfold MeetingRoom.cancel
      rw [if_neg (by omega)]
    · rw [cancel_fst_bookings room bid]
      exact hlen

/-- C6 witness: on a room with two distinct-id bookings, cancelling a
present id removes exactly that entry and cancelling a missing id fails
with `BookingNotFoundError`, leaving the room unchanged. -/
theorem cancel_spec_witness :
    ((MeetingRoom.mk "r" 20
        [Booking.mk "a" (TimeSlot.mk 0 1) "Alice" 5,
         Booking.mk "b" (TimeSlot.mk 2 3) "Bob" 6]).cancel "a").2 = none ∧
    ((MeetingRoom.mk "r" 20
        [Booking.mk "a" (TimeSlot.mk 0 1) "Alice" 5,
         Booking.mk "b" (TimeSlot.mk 2 3) "Bob" 6]).cancel "a").1.bookings.length + 1 = 2 ∧
    (MeetingRoom.mk "r" 20
        [Booking.mk "a" (TimeSlot.mk 0 1) "Alice" 5]).cancel "zzz" =
      (MeetingRoom.mk "r" 20 [Booking.mk "a" (TimeSlot.mk 0 1) "Alice" 5],
        some .bookingNotFound) :=
  ⟨((cancel_spec (MeetingRoom.mk "r" 20
      [Booking.mk "a" (TimeSlot.mk 0 1) "Alice" 5,
       Booking.mk "b" (TimeSlot.mk 2 3) "Bob" 6]) "a").2.2 (by decide) (by decide)).1,
   ((cancel_spec (MeetingRoom.mk "r" 20
      [Booking.mk "a" (TimeSlot.mk 0 1) "Alice" 5,
       Booking.mk "b" (TimeSlot.mk 2 3) "Bob" 6]) "a").2.2 (by decide) (by decide)).2,
   (cancel_spec (MeetingRoom.mk "r" 20
      [Booking.mk "a" (TimeSlot.mk 0 1) "Alice" 5]) "zzz").2.1 (by decide)⟩

theorem noOverlap_applyOp (room : MeetingRoom) (op : Op)
    (h : NoOverlap room.bookings) : NoOverlap (applyOp room op).bookings := by
  cases op with
  | cancel bid =>
      show NoOverlap (room.cancel bid).1.bookings
      rw [cancel_fst_bookings room bid]
      exact h.sublist (List.filter_sublist _)
  | book newId slot booker attendees =>
      show NoOverlap (room.book newId slot booker attendees).1.bookings
      rcases book_fst_bookings room newId slot booker attendees with h' | ⟨hany, h'⟩
      · rw [h']
        exact h
      · rw [h']
        have hnov : ∀ a ∈ room.bookings,
            a.time_slot.overlaps_with
              (Booking.mk newId slot booker attendees).time_slot = false := by
          intro a ha
          have := List.any_eq_false.mp hany a ha
          rw [show (Booking.mk newId slot booker attendees).time_slot = slot from rfl,
            ← overlaps_with_symm]
          simpa using this
        refine List.pairwise_append.mpr ⟨h, List.pairwise_singleton _ _, ?_⟩
        intro a ha b hb
        rw [List.mem_singleton.mp hb]
        exact hnov a ha

/-- C1: starting from a room with no bookings, after any finite sequence
of `book`/`cancel` calls (failed calls leave the state unchanged, so this
covers in particular every sequence of successful calls) no two entries of
`bookings` have overlapping time slots, with overlap the half-open rule of
`TimeSlot.overlaps_with`. -/
theorem no_overlap_invariant (rid : String) (cap : Int) (ops : List Op) :
    NoOverlap (runOps (MeetingRoom.mk rid cap []) ops).bookings := by
  have main : ∀ room : MeetingRoom, NoOverlap room.bookings →
      NoOverlap (runOps room ops).bookings := by
    induction ops with
    | nil => exact fun room h => h
    | cons op ops ih =>
        intro room h
        exact ih _ (noOverlap_applyOp room op h)
  exact main _ (List.Pairwise.nil)

theorem insertByStart_perm (b : Booking) (l : List Booking) :
    List.Perm (insertByStart b l) (b :: l) := by
  induction l with
  | nil => exact List.Perm.refl _
  | cons x xs ih =>
    unfold insertByStart
    by_cases h : b.time_slot.start_time ≤ x.time_slot.start_time
    · rw [if_pos h]
    · rw [if_neg h]
      exact (ih.cons x).trans (List.Perm.swap b x xs)

theorem sortByStart_perm (l : List Booking) : List.Perm (sortByStart l) l := by
  induction l with
  | nil => exact List.Perm.refl _
  | cons x xs ih =>
    exact (insertByStart_perm x (sortByStart xs)).trans (ih.cons x)

theorem insertByStart_pairwise (b : Booking) (l : List Booking)
    (h : l.Pairwise (fun a c => a.time_slot.start_time ≤ c.time_slot.start_time)) :
    (insertByStart b l).Pairwise
      (fun a c => a.time_slot.start_time ≤ c.time_slot.start_time) := by
  induction l with
  | nil => exact List.pairwise_singleton _ _
  | cons x xs ih =>
    rcases List.pairwise_cons.mp h with ⟨hx, hxs⟩
    unfold insertByStart
    by_cases hle : b.time_slot.start_time ≤ x.time_slot.start_time
    · rw [if_pos hle]
      refine List.pairwise_cons.mpr ⟨?_, h⟩
      intro y hy
      rcases List.mem_cons.mp hy with rfl | hy'
      · exact hle
      · exact le_trans hle (hx y hy')
    · rw [if_neg hle]
      refine List.pairwise_cons.mpr ⟨?_, ih hxs⟩
      intro y hy
      have hy2 := (insertByStart_perm b xs).mem_iff.mp hy
      rcases List.mem_cons.mp hy2 with rfl | hy'
      · omega
      · exact hx y hy'

theorem sortByStart_pairwise (l : List Booking) :
    (sortByStart l).Pairwise
      (fun a c => a.time_slot.start_time ≤ c.time_slot.start_time) := by
  induction l with
  | nil => exact List.Pairwise.nil
  | cons x xs ih => exact insertByStart_pairwise x _ ih

theorem insertByStart_filter_neg (b : Booking) (l : List Booking) (t : Int)
    (hb : (b.time_slot.start_time == t) = false) :
    (insertByStart b l).filter (fun x => x.time_slot.start_time == t) =
      l.filter (fun x => x.time_slot.start_time == t) := by
  induction l with
  | nil => simp [insertByStart, hb]
  | cons x xs ih =>
    unfold insertByStart
    by_cases hle : b.time_slot.start_time ≤ x.time_slot.start_time
    · rw [if_pos hle]
      simp [List.filter_cons, hb]
    · rw [if_neg hle]
      simp only [List.filter_cons, ih]

theorem insertByStart_filter_pos (b : Booking) (l : List Booking) (t : Int)
    (hb : (b.time_slot.start_time == t) = true) :
    (insertByStart b l).filter (fun x => x.time_slot.start_time == t) =
      b :: l.filter (fun x => x.time_slot.start_time == t) := by
  induction l with
  | nil => simp [insertByStart, hb]
  | cons x xs ih =>
    unfold insertByStart
    by_cases hle : b.time_slot.start_time ≤ x.time_slot.start_time
    · rw [if_pos hle]
      simp [List.filter_cons, hb]
    · rw [if_neg hle]
      have hbt : b.time_slot.start_time = t := by simpa using hb
      have hx : (x.time_slot.start_time == t) = false := by
        simp only [beq_eq_false_iff_ne, ne_eq]
        omega
      simp only [List.filter_cons, hx, ih]
      simp

theorem sortByStart_filter (l : List Booking) (t : Int) :
    (sortByStart l).filter (fun x => x.time_slot.start_time == t) =
      l.filter (fun x => x.time_slot.start_time == t) := by
  induction l with
  | nil => rfl
  | cons x xs ih =>
    unfold sortByStart
    by_cases hxb : (x.time_slot.start_time == t) = true
    · rw [insertByStart_filter_pos x _ t hxb, ih, List.filter_cons, hxb]
      simp
    · have hxb' : (x.time_slot.start_time == t) = false := by
        simpa using hxb
      rw [insertByStart_filter_neg x _ t hxb', ih, List.filter_cons, hxb']
      simp

/-- C9: `list_bookings()` returns the room's bookings sorted ascending by
`time_slot.start_time` (every earlier entry's start is at most every later
entry's), as a permutation of the stored list, and stably: at each start
time the sorted list keeps exactly the stored bookings with that start, in
their insertion order. The stored collection itself is untouched — the
embedding is pure and `list_bookings` builds a new list from
`room.bookings` without replacing it. -/
theorem list_bookings_spec (room : MeetingRoom) :
    room.list_bookings.Pairwise
        (fun a c => a.time_slot.start_time ≤ c.time_slot.start_time) ∧
    List.Perm room.list_bookings room.bookings ∧
    ∀ t : Int,
      room.list_bookings.filter (fun b => b.time_slot.start_time == t) =
        room.bookings.filter (fun b => b.time_slot.start_time == t) :=
  ⟨sortByStart_pairwise room.bookings, sortByStart_perm room.bookings,
    fun t => sortByStart_filter room.bookings t⟩

theorem fsGet_fsPut_same (fs : FS) (path : String) (d : FileData) :
    fsGet (fsPut fs path d) path = some d := by
  unfold fsGet fsPut
  rw [List.find?_cons_of_pos _ (by simp)]

theorem model_validate_model_dump (room : MeetingRoom)
    (hv : ∀ b ∈ room.bookings, b.validatorsOk) :
    MeetingRoom.model_validate room.model_dump = .ok room := by
  unfold MeetingRoom.model_validate MeetingRoom.model_dump
  have h1 : ((room.bookings.map serializeBooking).any
      BookingDoc.raisesAttendeeError) = false := by
    rw [List.any_eq_false]
    intro b hb
    rcases List.mem_map.mp hb with ⟨a, ha, rfl⟩
    rcases hv a ha with ⟨hs, h4, h20⟩
    simp [BookingDoc.raisesAttendeeError, serializeBooking, h4, h20]
  have h2 : ((room.bookings.map serializeBooking).any
      (fun b => !(decide (b.start_time < b.end_time)))) = false := by
    rw [List.any_eq_false]
    intro b hb
    rcases List.mem_map.mp hb with ⟨a, ha, rfl⟩
    rcases hv a ha with ⟨hs, h4, h20⟩
    simp [serializeBooking, hs]
  rw [if_neg (by simp [h1]), if_neg (by simp [h2]), List.map_map]
  have hid : bookingOfDoc ∘ serializeBooking = id := funext fun b => rfl
  rw [hid, List.map_id]

/-- C4: saving a room and then reading it back through `find_by_id` on a
new repository instance over the same storage directory returns a room
equal to the saved one (hence with identical id, capacity, and bookings:
ids, slots, bookers, attendee counts). The hypothesis that every stored
booking passes the pydantic validators holds for every room the Python
code can build, since `Booking`/`TimeSlot` validate at construction. -/
theorem save_round_trip (repo : JsonRepo) (room : MeetingRoom)
    (hv : ∀ b ∈ room.bookings, b.validatorsOk) :
    (JsonRepo.find_by_id (JsonRepo.fresh (repo.save room).fs) room.id).1 =
      .found room := by
  have hload : loadFromFile (fsPut repo.fs (filePathOf room.id)
        (.doc room.model_dump)) room.id =
      (.found room, fsPut repo.fs (filePathOf room.id) (.doc room.model_dump)) := by
    unfold loadFromFile
    simp only [fsGet_fsPut_same, model_validate_model_dump room hv]
  have hcg : cacheGet ([] : List (String × MeetingRoom)) room.id = none := rfl
  simp only [JsonRepo.find_by_id, JsonRepo.fresh, JsonRepo.save, hcg, hload]

/-- C4 witness: a one-booking room survives the save / fresh-instance /
find_by_id round trip. -/
theorem save_round_trip_witness :
    (JsonRepo.find_by_id
        (JsonRepo.fresh
          ((JsonRepo.fresh []).save
            (MeetingRoom.mk "r" 20 [Booking.mk "b1" (TimeSlot.mk 0 1) "Alice" 5])).fs)
        "r").1 =
      .found (MeetingRoom.mk "r" 20 [Booking.mk "b1" (TimeSlot.mk 0 1) "Alice" 5]) :=
  save_round_trip (JsonRepo.fresh [])
    (MeetingRoom.mk "r" 20 [Booking.mk "b1" (TimeSlot.mk 0 1) "Alice" 5])
    (by decide)

/-- C5 counterexample: a stored document that fails structural validation
because a booking's attendee count is 3 (outside the validated range 4..20,
with a valid time slot) makes `find_by_id` raise
`InvalidAttendeeCountError` to the caller — pydantic does not convert the
domain exception into a `ValidationError`, and the repository's `except`
clause catches only `OSError`/`PermissionError`/`JSONDecodeError`/
`ValueError` — and no `.backup` file is created (the file system is
unchanged). -/
theorem load_corruption_claim_counterexample :
    MeetingRoom.model_validate
        (RoomDoc.mk "r1" 20 [BookingDoc.mk "b1" 0 1 "Alice" 3]) = .attendeeError ∧
    JsonRepo.find_by_id
        (JsonRepo.fresh
          [(filePathOf "r1",
            FileData.doc (RoomDoc.mk "r1" 20 [BookingDoc.mk "b1" 0 1 "Alice" 3]))])
        "r1" =
      (.raised .invalidAttendeeCount,
        JsonRepo.fresh
          [(filePathOf "r1",
            FileData.doc (RoomDoc.mk "r1" 20 [BookingDoc.mk "b1" 0 1 "Alice" 3]))]) ∧
    fsGet
        (JsonRepo.find_by_id
          (JsonRepo.fresh
            [(filePathOf "r1",
              FileData.doc (RoomDoc.mk "r1" 20 [BookingDoc.mk "b1" 0 1 "Alice" 3]))])
          "r1").2.fs
        (backupPathOf "r1") = none := by
  refine ⟨by decide, by decide, by decide⟩

/-- C5 (amended): on a cache-miss read, a missing file yields absent with
no backup and no other change; a file that fails `json.load`, or is JSON of
the wrong shape, or fails validation with a `ValueError`-class error (as an
invalid time slot does) yields absent and a `.backup` sibling holding the
original content; but a file whose validation fails because a booking's
attendee count is out of range raises `InvalidAttendeeCountError` to the
caller, with no backup. -/
theorem load_corruption_spec (fs : FS) (roomId : String) :
    (fsGet fs (filePathOf roomId) = none →
      JsonRepo.find_by_id (JsonRepo.fresh fs) roomId =
        (.absent, JsonRepo.fresh fs)) ∧
    (∀ raw, fsGet fs (filePathOf roomId) = some (.unparseable raw) →
      (JsonRepo.find_by_id (JsonRepo.fresh fs) roomId).1 = .absent ∧
      fsGet (JsonRepo.find_by_id (JsonRepo.fresh fs) roomId).2.fs
          (backupPathOf roomId) = some (.unparseable raw)) ∧
    (∀ raw, fsGet fs (filePathOf roomId) = some (.wrongShape raw) →
      (JsonRepo.find_by_id (JsonRepo.fresh fs) roomId).1 = .absent ∧
      fsGet (JsonRepo.find_by_id (JsonRepo.fresh fs) roomId).2.fs
          (backupPathOf roomId) = some (.wrongShape raw)) ∧
    (∀ d, fsGet fs (filePathOf roomId) = some (.doc d) →
      MeetingRoom.model_validate d = .valueError →
      (JsonRepo.find_by_id (JsonRepo.fresh fs) roomId).1 = .absent ∧
      fsGet (JsonRepo.find_by_id (JsonRepo.fresh fs) roomId).2.fs
          (backupPathOf roomId) = some (.doc d)) ∧
    (∀ d, fsGet fs (filePathOf roomId) = some (.doc d) →
      MeetingRoom.model_validate d = .attendeeError →
      JsonRepo.find_by_id (JsonRepo.fresh fs) roomId =
        (.raised .invalidAttendeeCount, JsonRepo.fresh fs)) := by
  have hcg : cacheGet ([] : List (String × MeetingRoom)) roomId = none := rfl
  refine ⟨fun h => ?_, fun raw h => ?_, fun raw h => ?_,
    fun d h hval => ?_, fun d h hval => ?_⟩
  · simp only [JsonRepo.find_by_id, JsonRepo.fresh, loadFromFile, hcg, h]
  · simp only [JsonRepo.find_by_id, JsonRepo.fresh, loadFromFile, hcg, h]
    exact ⟨trivial, fsGet_fsPut_same _ _ _⟩
  · simp only [JsonRepo.find_by_id, JsonRepo.fresh, loadFromFile, hcg, h]
    exact ⟨trivial, fsGet_fsPut_same _ _ _⟩
  · simp only [JsonRepo.find_by_id, JsonRepo.fresh, loadFromFile, hcg, h, hval]
    exact ⟨trivial, fsGet_fsPut_same _ _ _⟩
  · simp only [JsonRepo.find_by_id, JsonRepo.fresh, loadFromFile, hcg, h, hval]

/-- C5 witness: a directory without the file yields absent and is left
unchanged; a directory whose file is unparseable yields absent and gains a
`.backup` holding the original content. -/
theorem load_corruption_spec_witness :
    JsonRepo.find_by_id (JsonRepo.fresh []) "r1" = (.absent, JsonRepo.fresh []) ∧
    (JsonRepo.find_by_id
        (JsonRepo.fresh [(filePathOf "r1", FileData.unparseable "oops")]) "r1").1 =
      .absent ∧
    fsGet
        (JsonRepo.find_by_id
          (JsonRepo.fresh [(filePathOf "r1", FileData.unparseable "oops")]) "r1").2.fs
        (backupPathOf "r1") = some (.unparseable "oops") :=
  ⟨(load_corruption_spec [] "r1").1 rfl,
    ((load_corruption_spec [(filePathOf "r1", FileData.unparseable "oops")] "r1").2.1
      "oops" (by decide)).1,
    ((load_corruption_spec [(filePathOf "r1", FileData.unparseable "oops")] "r1").2.1
      "oops" (by decide)).2⟩

/-- C10: validating a stored document checks each booking only
individually, so a document whose bookings are individually valid but
mutually overlapping and sharing one booking id validates successfully,
and `find_by_id` returns a `MeetingRoom` violating both the no-overlap
invariant and booking-id uniqueness. -/
theorem deserialization_skips_room_invariants :
    MeetingRoom.model_validate
        (RoomDoc.mk "r" 20
          [BookingDoc.mk "b1" 0 2 "Alice" 5, BookingDoc.mk "b1" 1 3 "Bob" 6]) =
      .ok (MeetingRoom.mk "r" 20
        [Booking.mk "b1" (TimeSlot.mk 0 2) "Alice" 5,
         Booking.mk "b1" (TimeSlot.mk 1 3) "Bob" 6]) ∧
    (JsonRepo.find_by_id
        (JsonRepo.fresh
          [(filePathOf "r",
            FileData.doc (RoomDoc.mk "r" 20
              [BookingDoc.mk "b1" 0 2 "Alice" 5,
               BookingDoc.mk "b1" 1 3 "Bob" 6]))]) "r").1 =
      .found (MeetingRoom.mk "r" 20
        [Booking.mk "b1" (TimeSlot.mk 0 2) "Alice" 5,
         Booking.mk "b1" (TimeSlot.mk 1 3) "Bob" 6]) ∧
    ¬ NoOverlap
        [Booking.mk "b1" (TimeSlot.mk 0 2) "Alice" 5,
         Booking.mk "b1" (TimeSlot.mk 1 3) "Bob" 6] ∧
    ¬ ([Booking.mk "b1" (TimeSlot.mk 0 2) "Alice" 5,
        Booking.mk "b1" (TimeSlot.mk 1 3) "Bob" 6].Pairwise
          (fun a b => a.booking_id ≠ b.booking_id)) := by
  refine ⟨by decide, by decide, ?_, ?_⟩
  · unfold NoOverlap
    decide
  · decide

end MRRS
